import Mathlib

/-!
Shallow embedding of the media-compressor service
(source: src/compressor/compressor.py).

The external world seen by one run — filesystem stat results, ffprobe and
ffmpeg subprocess outcomes, lock state — is modelled by the oracle structures
FileWorld and RunWorld.  The embedded functions mirror the control flow of the
Python source line by line.  Python exceptions that the source does not catch
are modelled by Except PyErr; every subprocess invocation, filesystem
mutation and webhook notification performed by the code is recorded in a
List Event trace, so that claims about "no subprocess", "no mutation",
"temp file deleted", "summary notified" are statements about the trace.
Sizes are exact rationals (GB = bytes / 1024 ^ 3); durations are rationals
(seconds).
-/

deriving instance DecidableEq for Except

namespace Compressor

/-- ASCII lowercasing of one character (the inputs here are codec names
reported by ffprobe, which are ASCII). -/
def lowerChar (c : Char) : Char :=
  if 65 ≤ c.toNat ∧ c.toNat ≤ 90 then Char.ofNat (c.toNat + 32) else c

/-- ASCII lowercasing of a string, by structural recursion over its
characters (models str.lower() from the source). -/
def lowerString (s : String) : String :=
  String.mk (s.data.map lowerChar)

/-- Exact rational division built directly from numerators and denominators.
The library division on ℚ is declared irreducible, which would block
evaluation of the model on concrete inputs; qdiv_eq_div shows this is the
same function. -/
def qdiv (a b : ℚ) : ℚ := Rat.divInt (a.num * b.den) (a.den * b.num)

/-- Exact rational multiplication (see qmul_eq_mul). -/
def qmul (a b : ℚ) : ℚ := mkRat (a.num * b.num) (a.den * b.den)

/-- Exact rational subtraction (see qsub_eq_sub). -/
def qsub (a b : ℚ) : ℚ := mkRat (a.num * b.den - b.num * a.den) (a.den * b.den)

/-- Exact rational absolute value (see qabs_eq_abs). -/
def qabs (x : ℚ) : ℚ := if x.num < 0 then Rat.neg x else x

theorem qdiv_eq_div (a b : ℚ) : qdiv a b = a / b :=
  (Rat.div_def' a b).symm

theorem qmul_eq_mul (a b : ℚ) : qmul a b = a * b :=
  (Rat.mul_eq_mkRat a b).symm

theorem qsub_eq_sub (a b : ℚ) : qsub a b = a - b :=
  (Rat.sub_def' a b).symm

theorem qabs_eq_abs (x : ℚ) : qabs x = |x| := by
  unfold qabs
  by_cases h : x.num < 0
  · rw [if_pos h, abs_of_neg (by exact lt_of_not_le fun hx => absurd (Rat.num_nonneg.mpr hx) (not_le.mpr h))]
    rfl
  · rw [if_neg h, abs_of_nonneg (Rat.num_nonneg.mp (le_of_not_lt h))]

/-- Configuration fields the claims depend on: DRY_RUN and
MIN_COMPRESSION_RATIO (default 0.8 in the source). -/
structure Config where
  dry_run : Bool
  min_compression_ratio : ℚ
deriving DecidableEq

/-- Default configuration: dry_run false, threshold 0.8 = 4/5. -/
def defaultConfig : Config :=
  { dry_run := false, min_compression_ratio := mkRat 4 5 }

/-- Python exceptions that escape process_file uncaught: an OSError from
Path.stat (get_file_size_gb has no try block) and ZeroDivisionError from the
unguarded ratio division. -/
inductive PyErr
  | osError
  | zeroDivisionError
deriving DecidableEq

/-- The per-file statistics dict built by process_file (the OutcomeRecord of
the spec).  Sizes in GB as exact rationals. -/
structure Stats where
  file : String
  success : Bool
  original_size_gb : ℚ
  compressed_size_gb : ℚ
  space_saved_gb : ℚ
  error : Option String
deriving DecidableEq

/-- Observable actions of the code: subprocess invocations (ffprobe codec and
duration queries, the ffmpeg transcode, the ffmpeg decode test), filesystem
mutations (unlink, rename), webhook notifications, the Plex scan trigger, and
run-lock transitions. -/
inductive Event
  | probeCodec : String → Event
  | probeDuration : String → Event
  | transcode : String → String → Event
  | decodeTest : String → Event
  | unlinkFile : String → Event
  | renameFile : String → String → Event
  | notifyPerFile : String → Event
  | notifySummary : Event
  | notifyNoVideos : Event
  | notifyFatal : Event
  | plexScan : Event
  | lockAcquired : Event
  | lockReleased : Event
deriving DecidableEq

/-- Subprocess invocations (any call into the external media engine). -/
def isEngineCall : Event → Bool
  | Event.probeCodec _ => true
  | Event.probeDuration _ => true
  | Event.transcode _ _ => true
  | Event.decodeTest _ => true
  | _ => false

/-- Filesystem mutations. -/
def isFsMutation : Event → Bool
  | Event.unlinkFile _ => true
  | Event.renameFile _ _ => true
  | _ => false

/-- Oracle describing the environment while process_file handles one
candidate file.  Each field records what the external world would answer for
the corresponding call site in the source. -/
structure FileWorld where
  /-- Result of find_matching_media_file: the matched library path, if any. -/
  matched : Option String
  /-- st_size in bytes of the matched file; none means Path.stat raised
  OSError (get_file_size_gb does not catch it). -/
  originalStat : Option ℕ
  /-- Stripped ffprobe stdout of the codec query on the matched file when it
  exits 0; none covers non-zero exit, timeout, or any exception
  (get_video_codec catches everything and returns None). -/
  codecOut : Option String
  /-- get_video_duration result for the matched file (None on any failure). -/
  originalDuration : Option ℚ
  /-- Wall-clock seconds the ffmpeg transcode process runs.  The source
  passes no timeout to Popen or wait, so nothing in the code can depend on
  this value. -/
  engineRuntime : ℚ
  /-- Whether an exception occurs inside the compress_video try block
  (Popen failure, broken pipe while reading progress, ...). -/
  engineExc : Bool
  /-- Exit code of the ffmpeg transcode process. -/
  engineExit : Int
  /-- Whether a partial output file exists after a failed transcode. -/
  tempExistsAfterFail : Bool
  /-- get_video_duration result for the temp output. -/
  compressedDuration : Option ℚ
  /-- Stripped ffprobe codec stdout for the temp output (as codecOut). -/
  compressedCodecOut : Option String
  /-- Decode test: none means subprocess.run raised (e.g. the 30 s timeout);
  some (rc, stderr) is the exit code and captured error stream. -/
  decodeRun : Option (Int × String)
  /-- st_size in bytes of the temp output; none means stat raised. -/
  tempStat : Option ℕ
  /-- Whether media_file.unlink() raises in the swap step. -/
  unlinkOriginalRaises : Bool
  /-- Whether temp_output.rename(media_file) raises in the swap step. -/
  renameRaises : Bool
  /-- Whether the intake candidate file still exists at swap time. -/
  downloadsExists : Bool
  /-- Whether downloads_file.unlink() raises in the swap step. -/
  unlinkDownloadsRaises : Bool
deriving DecidableEq

/-- get_file_size_gb: st_size / (1024 ** 3), as an exact rational. -/
def get_file_size_gb (bytes : ℕ) : ℚ :=
  Rat.divInt (bytes : ℤ) ((1024 ^ 3 : ℕ) : ℤ)

theorem get_file_size_gb_eq (bytes : ℕ) :
    get_file_size_gb bytes = (bytes : ℚ) / (1024 ^ 3 : ℚ) := by
  rw [get_file_size_gb, Rat.divInt_eq_div]
  push_cast
  ring

/-- get_video_codec: on success the stripped stdout lowercased, else None. -/
def get_video_codec (probeOut : Option String) : Option String :=
  probeOut.map lowerString

/-- The membership test `codec in ('hevc', 'h265')` from the source; Python
yields False when the value is None. -/
def isTarget : Option String → Bool
  | some s => if s = "hevc" ∨ s = "h265" then true else false
  | none => false

/-- Python truthiness of an optional float: None and 0.0 are falsy.  This is
the semantics of `if not compressed_duration` and `if original_duration and
...` in the source. -/
def truthy : Option ℚ → Bool
  | some x => if x = 0 then false else true
  | none => false

/-- Python division: raises ZeroDivisionError on a zero denominator (also for
floats). -/
def pydiv (a b : ℚ) : Except PyErr ℚ :=
  if b = 0 then Except.error PyErr.zeroDivisionError else Except.ok (qdiv a b)

/-- The hidden temporary output path.  The source builds
`parent/.{stem}.tmp{suffix}`; only its distinctness from the media path
matters to the claims, so the model prepends a dot and appends ".tmp". -/
def temp_output_path (m : String) : String :=
  "." ++ m ++ ".tmp"

/-- Fresh statistics dict for a candidate, with the original size filled in
(source lines 219-226 and 235-236). -/
def baseStats (fname : String) (osize : ℚ) : Stats :=
  { file := fname, success := false, original_size_gb := osize,
    compressed_size_gb := 0, space_saved_gb := 0, error := none }

/-- compress_video: probes the input duration (for progress logging), starts
the ffmpeg transcode, and waits for it with NO timeout — the result depends
only on whether an exception occurred and on the exit code, never on
engineRuntime.  Returns the success flag together with the subprocess events
it performs. -/
def compress_video (w : FileWorld) (input output : String) : Bool × List Event :=
  let ok : Bool :=
    if w.engineExc then false
    else if w.engineExit ≠ 0 then false
    else true
  (ok, [Event.probeDuration input, Event.transcode input output])

/-- The swap step of process_file (source lines 339-364): delete the
original, rename the temp file over it, delete the intake candidate, mark
success and send the per-file notification; on any exception the except
handler records the error and deletes the temp file if it still exists. -/
def swapPhase (w : FileWorld) (fname m : String) (osize csize : ℚ) :
    Except PyErr Stats × List Event :=
  let t := temp_output_path m
  let s : Stats :=
    { baseStats fname osize with
        compressed_size_gb := csize, space_saved_gb := qsub osize csize }
  if w.unlinkOriginalRaises then
    -- media_file.unlink() raised: the temp file still exists, the except
    -- handler deletes it; the original is untouched.
    (Except.ok { s with error := some "Failed to replace" },
     [Event.unlinkFile t])
  else if w.renameRaises then
    -- original already deleted, rename failed: the temp file still exists,
    -- and the except handler deletes it.
    (Except.ok { s with error := some "Failed to replace" },
     [Event.unlinkFile m, Event.unlinkFile t])
  else if w.downloadsExists then
    if w.unlinkDownloadsRaises then
      -- rename already succeeded, so temp_output.exists() is false and the
      -- except handler deletes nothing; success was not yet set.
      (Except.ok { s with error := some "Failed to replace" },
       [Event.unlinkFile m, Event.renameFile t m])
    else
      (Except.ok { s with success := true },
       [Event.unlinkFile m, Event.renameFile t m, Event.unlinkFile fname,
        Event.notifyPerFile m])
  else
    (Except.ok { s with success := true },
     [Event.unlinkFile m, Event.renameFile t m, Event.notifyPerFile m])

/-- Size measurement and compression-ratio gate of process_file (source
lines 321-337): stat the temp file (may raise), compute
compressed_size / original_size with Python division (may raise
ZeroDivisionError), and reject the swap when the ratio strictly exceeds the
threshold, deleting the temp file unconditionally. -/
def ratioPhase (cfg : Config) (w : FileWorld) (fname m : String) (osize : ℚ) :
    Except PyErr Stats × List Event :=
  let t := temp_output_path m
  match w.tempStat with
  | none => (Except.error PyErr.osError, [])
  | some cb =>
    let csize := get_file_size_gb cb
    match pydiv csize osize with
    | Except.error e => (Except.error e, [])
    | Except.ok cr =>
      if cr > cfg.min_compression_ratio then
        (Except.ok
          { baseStats fname osize with
              compressed_size_gb := csize, space_saved_gb := qsub osize csize,
              error := some "Insufficient compression" },
         [Event.unlinkFile t])
      else
        swapPhase w fname m osize csize

/-- Verification of the transcoded output (source lines 270-319): the
duration check (`if not compressed_duration`), the duration-match check
(`if original_duration and abs(...) > 5`), the codec check, and the decode
test, each deleting the temp file and stopping at the first failure. -/
def verifyPhase (cfg : Config) (w : FileWorld) (fname m : String) (osize : ℚ) :
    Except PyErr Stats × List Event :=
  let t := temp_output_path m
  if !truthy w.compressedDuration then
    (Except.ok
      { baseStats fname osize with error := some "Compressed file has no duration" },
     [Event.probeDuration t, Event.unlinkFile t])
  else
    let cd := w.compressedDuration.getD 0
    if truthy w.originalDuration = true ∧ qabs (qsub cd (w.originalDuration.getD 0)) > 5 then
      (Except.ok
        { baseStats fname osize with error := some "Duration mismatch (file truncated)" },
       [Event.probeDuration t, Event.unlinkFile t])
    else
      let cc := get_video_codec w.compressedCodecOut
      if !isTarget cc then
        (Except.ok
          { baseStats fname osize with
              error := some ("Wrong codec: " ++ cc.getD "None") },
         [Event.probeDuration t, Event.probeCodec t, Event.unlinkFile t])
      else
        match w.decodeRun with
        | none =>
          (Except.ok
            { baseStats fname osize with error := some "Decode test error" },
           [Event.probeDuration t, Event.probeCodec t, Event.decodeTest t,
            Event.unlinkFile t])
        | some (rc, errS) =>
          if rc ≠ 0 ∨ errS ≠ "" then
            (Except.ok
              { baseStats fname osize with error := some "Decode test failed" },
             [Event.probeDuration t, Event.probeCodec t, Event.decodeTest t,
              Event.unlinkFile t])
          else
            let r := ratioPhase cfg w fname m osize
            (r.1,
             [Event.probeDuration t, Event.probeCodec t, Event.decodeTest t] ++ r.2)

/-- Continuation of process_file after the already-HEVC check and the probe of
the original duration (source lines 248-268): dry-run short circuit, then
the transcode and, on its success, verification. -/
def afterCodec (cfg : Config) (w : FileWorld) (fname m : String) (osize : ℚ) :
    Except PyErr Stats × List Event :=
  if cfg.dry_run then
    (Except.ok
      { file := fname, success := true, original_size_gb := osize,
        compressed_size_gb := qmul osize (mkRat 1 2),
        space_saved_gb := qmul osize (mkRat 1 2), error := none },
     [])
  else
    let c := compress_video w m (temp_output_path m)
    if !c.1 then
      (Except.ok { baseStats fname osize with error := some "Compression failed" },
       c.2 ++
         if w.tempExistsAfterFail then [Event.unlinkFile (temp_output_path m)]
         else [])
    else
      let r := verifyPhase cfg w fname m osize
      (r.1, c.2 ++ r.2)

/-- process_file (source lines 214-366): find the matched library file, stat
it (uncaught OSError possible), skip if already HEVC, probe the original
duration, then hand off to the dry-run / transcode / verify / ratio / swap
sequence. -/
def process_file (cfg : Config) (w : FileWorld) (fname : String) :
    Except PyErr Stats × List Event :=
  match w.matched with
  | none =>
    (Except.ok
      { file := fname, success := false, original_size_gb := 0,
        compressed_size_gb := 0, space_saved_gb := 0,
        error := some "No matching media file" },
     [])
  | some m =>
    match w.originalStat with
    | none => (Except.error PyErr.osError, [])
    | some ob =>
      let osize := get_file_size_gb ob
      let vc := get_video_codec w.codecOut
      if isTarget vc then
        (Except.ok
          { baseStats fname osize with
              error := some ("Already HEVC (" ++ vc.getD "" ++ ")") },
         [Event.probeCodec m])
      else
        let r := afterCodec cfg w fname m osize
        (r.1, Event.probeCodec m :: Event.probeDuration m :: r.2)

/-- Oracle for one whole run: whether another process already holds the run
lock, and the list of candidate files found in the intake directory, each
with its per-file world. -/
structure RunWorld where
  lockHeld : Bool
  files : List (String × FileWorld)

/-- The per-file loop of main (source lines 424-431).  There is no try block
around process_file: an Except.error aborts the loop and propagates. -/
def runLoop (cfg : Config) : List (String × FileWorld) →
    Except PyErr (List Stats) × List Event
  | [] => (Except.ok [], [])
  | (f, w) :: rest =>
    let r := process_file cfg w f
    match r.1 with
    | Except.error e => (Except.error e, r.2)
    | Except.ok s =>
      let r2 := runLoop cfg rest
      match r2.1 with
      | Except.error e => (Except.error e, r.2 ++ r2.2)
      | Except.ok l => (Except.ok (s :: l), r.2 ++ r2.2)

/-- Number of successful compressions in a result list. -/
def countSuccess (l : List Stats) : ℕ :=
  (l.filter (fun s => s.success)).length

/-- Successful compressions of a loop result; an aborted loop has none. -/
def okSuccesses : Except PyErr (List Stats) → ℕ
  | Except.ok l => countSuccess l
  | Except.error _ => 0

/-- main together with the top-level handler of the script (source lines
388-487): non-blocking lock acquisition with successful exit 0 when already
held; the "no videos" notification; the per-file loop; the summary
notification and Plex scan only when at least one compression succeeded; the
finally block releasing the lock on every path; and, for an exception
escaping main, the best-effort fatal notification and exit 1.  Returns the
process exit code and the event trace. -/
def main (cfg : Config) (w : RunWorld) : ℕ × List Event :=
  if w.lockHeld then (0, [])
  else if w.files.isEmpty then
    (0, [Event.lockAcquired, Event.notifyNoVideos, Event.lockReleased])
  else
    let r := runLoop cfg w.files
    match r.1 with
    | Except.error _ =>
      (1, Event.lockAcquired :: (r.2 ++ [Event.lockReleased, Event.notifyFatal]))
    | Except.ok l =>
      let post :=
        if countSuccess l > 0 then [Event.notifySummary, Event.plexScan] else []
      (0, Event.lockAcquired :: ((r.2 ++ post) ++ [Event.lockReleased]))


/-!
Claim theorems.  Each concrete world below instantiates the oracle at an
explicit input; wOk is a world in which every step of the pipeline succeeds
(10 GB original, h264, one-hour duration, 4 GB verified output).
-/

/-- A world in which every step of the pipeline succeeds. -/
def wOk : FileWorld :=
  { matched := some "m.mkv", originalStat := some (10 * 1024 ^ 3),
    codecOut := some "h264", originalDuration := some 3600,
    engineRuntime := 60, engineExc := false, engineExit := 0,
    tempExistsAfterFail := true, compressedDuration := some 3600,
    compressedCodecOut := some "hevc", decodeRun := some (0, ""),
    tempStat := some (4 * 1024 ^ 3), unlinkOriginalRaises := false,
    renameRaises := false, downloadsExists := true,
    unlinkDownloadsRaises := false }

/-- Claim C1 (code bug, evaluation at the failing input): in the swap step,
when media_file.unlink() has succeeded and temp_output.rename() then raises,
the except handler of process_file sees that the temp file still exists and
deletes it — destroying the only remaining copy of the data.  The claim
(and the spec) say the temp file is preserved on every failure path once the
original is gone.  The trace below ends with the deletion of the original
followed by the deletion of the temp file, with no rename event. -/
theorem C1_swap_failure_deletes_temp :
    process_file defaultConfig { wOk with renameRaises := true } "d.mkv" =
      (Except.ok
        { file := "d.mkv", success := false, original_size_gb := 10,
          compressed_size_gb := 4, space_saved_gb := 6,
          error := some "Failed to replace" },
       [Event.probeCodec "m.mkv", Event.probeDuration "m.mkv",
        Event.probeDuration "m.mkv", Event.transcode "m.mkv" ".m.mkv.tmp",
        Event.probeDuration ".m.mkv.tmp", Event.probeCodec ".m.mkv.tmp",
        Event.decodeTest ".m.mkv.tmp", Event.unlinkFile "m.mkv",
        Event.unlinkFile ".m.mkv.tmp"]) ∧
    Event.renameFile ".m.mkv.tmp" "m.mkv" ∉
      (process_file defaultConfig { wOk with renameRaises := true } "d.mkv").2 := by
  decide

/-- World identical to wOk except that the transcoding engine runs for three
hours of wall-clock time (and still exits 0). -/
def wLong : FileWorld := { wOk with engineRuntime := 10800 }

/-- Claim C3 counterexample: there is no wall-clock timeout on the
transcode.  At a world where the engine runs 10800 s (3 h > the claimed 2 h
bound) and exits 0, compress_video reports success — not a timeout
failure — and the whole pipeline completes successfully instead of
abandoning the job. -/
theorem C3_counterexample :
    wLong.engineRuntime > 7200 ∧
    (compress_video wLong "m.mkv" ".m.mkv.tmp").1 = true ∧
    (process_file defaultConfig wLong "d.mkv").1 =
      Except.ok
        { file := "d.mkv", success := true, original_size_gb := 10,
          compressed_size_gb := 4, space_saved_gb := 6, error := none } := by
  decide

/-- Claim C3 amended: compress_video imposes no wall-clock timeout on the
transcode: its result is independent of how long the engine ran and depends
only on whether an exception occurred and on the exit status, succeeding
exactly when no exception occurred and the exit code is zero. -/
theorem C3_amended_no_timeout (w v : FileWorld) (i o : String)
    (h1 : w.engineExc = v.engineExc) (h2 : w.engineExit = v.engineExit) :
    (compress_video w i o).1 = (compress_video v i o).1 ∧
    ((compress_video w i o).1 = true ↔ w.engineExc = false ∧ w.engineExit = 0) := by
  refine ⟨by simp only [compress_video, h1, h2], ?_⟩
  by_cases hE : w.engineExc <;> by_cases hX : w.engineExit = 0 <;>
    simp [compress_video, hE, hX]

/-- Witness for C3_amended_no_timeout: the engine result at a 3 hour run
equals the result at a 1 second run, and the 3 hour run with exit code 0 is
reported as success. -/
theorem C3_amended_no_timeout_witness :
    ((compress_video wLong "a" "b").1 =
       (compress_video { wLong with engineRuntime := 1 } "a" "b").1) ∧
    ((compress_video wLong "a" "b").1 = true ↔
       wLong.engineExc = false ∧ wLong.engineExit = 0) :=
  C3_amended_no_timeout wLong { wLong with engineRuntime := 1 } "a" "b" rfl rfl

/-- Configuration with the dry-run flag set. -/
def cfgDry : Config := { dry_run := true, min_compression_ratio := mkRat 4 5 }

/-- Claim C4 counterexample: in dry-run mode the codec probe and the
duration probe subprocesses are still invoked before the dry-run short
circuit, so "no subprocess of any kind, including probe calls" is false: at
a concrete matched, non-target-codec world the dry-run trace consists of
exactly those two engine invocations. -/
theorem C4_counterexample :
    (process_file cfgDry wOk "d.mkv").2 =
      [Event.probeCodec "m.mkv", Event.probeDuration "m.mkv"] ∧
    (process_file cfgDry wOk "d.mkv").2.any (fun e => isEngineCall e) = true := by
  decide

/-- Claim C4 amended: in dry-run mode, for every matched file not already at
the target codec, process_file performs no transcode and no decode-test
subprocess and no filesystem mutation, and returns a synthesized success
record whose compressed size and space saved are each exactly half the
original size; the codec and duration probes are still invoked first. -/
theorem C4_dry_run (cfg : Config) (w : FileWorld) (f m : String) (ob : ℕ)
    (hdry : cfg.dry_run = true) (hm : w.matched = some m)
    (hs : w.originalStat = some ob)
    (hc : isTarget (get_video_codec w.codecOut) = false) :
    process_file cfg w f =
      (Except.ok
        { file := f, success := true,
          original_size_gb := get_file_size_gb ob,
          compressed_size_gb := qmul (get_file_size_gb ob) (mkRat 1 2),
          space_saved_gb := qmul (get_file_size_gb ob) (mkRat 1 2),
          error := none },
       [Event.probeCodec m, Event.probeDuration m]) ∧
    ∀ e ∈ (process_file cfg w f).2, isFsMutation e = false := by
  have hpf : process_file cfg w f =
      (Except.ok
        { file := f, success := true,
          original_size_gb := get_file_size_gb ob,
          compressed_size_gb := qmul (get_file_size_gb ob) (mkRat 1 2),
          space_saved_gb := qmul (get_file_size_gb ob) (mkRat 1 2),
          error := none },
       [Event.probeCodec m, Event.probeDuration m]) := by
    simp [process_file, hm, hs, hc, afterCodec, hdry]
  refine ⟨hpf, ?_⟩
  intro e he
  rw [hpf] at he
  simp only [List.mem_cons, List.not_mem_nil, or_false] at he
  rcases he with rfl | rfl <;> rfl

/-- Witness for C4_dry_run at the concrete dry-run world. -/
theorem C4_dry_run_witness :
    process_file cfgDry wOk "d.mkv" =
      (Except.ok
        { file := "d.mkv", success := true,
          original_size_gb := get_file_size_gb (10 * 1024 ^ 3),
          compressed_size_gb := qmul (get_file_size_gb (10 * 1024 ^ 3)) (mkRat 1 2),
          space_saved_gb := qmul (get_file_size_gb (10 * 1024 ^ 3)) (mkRat 1 2),
          error := none },
       [Event.probeCodec "m.mkv", Event.probeDuration "m.mkv"]) ∧
    ∀ e ∈ (process_file cfgDry wOk "d.mkv").2, isFsMutation e = false :=
  C4_dry_run cfgDry wOk "d.mkv" "m.mkv" (10 * 1024 ^ 3) rfl rfl rfl (by decide)

/-- Claim C8: when the run lock is already held, a second run exits with
code 0 and an empty trace — no engine call, no filesystem operation, no
notification; when the lock is free, the whole run is scoped between the
lock acquisition and its release, the only events after the release being
the best-effort fatal notification of the top-level handler.  The lock
acquisition is non-blocking in the model: the held case produces no
retry or wait, just the immediate successful exit. -/
theorem C8_lock_exclusion (cfg : Config) (w : RunWorld) :
    (w.lockHeld = true → main cfg w = (0, [])) ∧
    (w.lockHeld = false →
      ∃ body tail,
        (main cfg w).2 = Event.lockAcquired :: (body ++ Event.lockReleased :: tail) ∧
        (tail = [] ∨ tail = [Event.notifyFatal])) := by
  constructor
  · intro h
    simp [main, h]
  · intro h
    by_cases he : w.files.isEmpty
    · exact ⟨[Event.notifyNoVideos], [], by simp [main, h, he], Or.inl rfl⟩
    · cases hr : (runLoop cfg w.files).1 with
      | error e =>
        exact ⟨(runLoop cfg w.files).2, [Event.notifyFatal],
          by simp [main, h, he, hr], Or.inr rfl⟩
      | ok l =>
        refine ⟨(runLoop cfg w.files).2 ++
            (if countSuccess l > 0 then [Event.notifySummary, Event.plexScan] else []),
          [], ?_, Or.inl rfl⟩
        simp [main, h, he, hr]

/-- Witness for C8_lock_exclusion: a second run with the lock held performs
nothing and exits 0. -/
theorem C8_lock_exclusion_witness :
    main defaultConfig { lockHeld := true, files := [("d.mkv", wOk)] } = (0, []) :=
  (C8_lock_exclusion defaultConfig { lockHeld := true, files := [("d.mkv", wOk)] }).1 rfl


/-!
Pipeline evaluation lemmas: how process_file unfolds under the hypotheses
that the early stages succeed.  These are shared by several claims.
-/

/-- The temp path is never equal to the media path. -/
theorem temp_output_path_ne (m : String) : temp_output_path m ≠ m := by
  intro h
  have h2 := congrArg String.length h
  rw [temp_output_path, String.length_append, String.length_append] at h2
  have e1 : String.length "." = 1 := rfl
  have e2 : String.length ".tmp" = 4 := rfl
  rw [e1, e2] at h2
  omega

/-- The original size of a file with positive byte count is nonzero. -/
theorem get_file_size_gb_ne_zero {ob : ℕ} (hob : 0 < ob) :
    get_file_size_gb ob ≠ 0 := by
  rw [get_file_size_gb, Rat.divInt_ne_zero (by positivity)]
  exact_mod_cast Nat.pos_iff_ne_zero.mp hob

/-- A zero-byte file has size 0 GB. -/
theorem get_file_size_gb_zero : get_file_size_gb 0 = 0 := by
  rw [get_file_size_gb]
  exact Rat.zero_divInt _

/-- When the file matched, the stat succeeded and the probed codec is not in
the target set, process_file proceeds past the already-HEVC gate. -/
theorem process_file_proceed (cfg : Config) (w : FileWorld) (f m : String) (ob : ℕ)
    (hm : w.matched = some m) (hs : w.originalStat = some ob)
    (hc : isTarget (get_video_codec w.codecOut) = false) :
    process_file cfg w f =
      ((afterCodec cfg w f m (get_file_size_gb ob)).1,
       Event.probeCodec m :: Event.probeDuration m ::
         (afterCodec cfg w f m (get_file_size_gb ob)).2) := by
  simp [process_file, hm, hs, hc]

/-- Outside dry-run mode, when the engine does not raise and exits 0, the
transcode succeeds and afterCodec hands off to verification. -/
theorem afterCodec_verify (cfg : Config) (w : FileWorld) (f m : String) (osize : ℚ)
    (hdry : cfg.dry_run = false) (hexc : w.engineExc = false)
    (hexit : w.engineExit = 0) :
    afterCodec cfg w f m osize =
      ((verifyPhase cfg w f m osize).1,
       Event.probeDuration m :: Event.transcode m (temp_output_path m) ::
         (verifyPhase cfg w f m osize).2) := by
  simp [afterCodec, hdry, compress_video, hexc, hexit]

/-- When all four verification checks pass, verifyPhase hands off to the
ratio gate. -/
theorem verifyPhase_ratio (cfg : Config) (w : FileWorld) (f m : String) (osize : ℚ)
    (hcd : truthy w.compressedDuration = true)
    (hdur : ¬(truthy w.originalDuration = true ∧
        qabs (qsub (w.compressedDuration.getD 0) (w.originalDuration.getD 0)) > 5))
    (hcc : isTarget (get_video_codec w.compressedCodecOut) = true)
    (hdec : w.decodeRun = some (0, "")) :
    verifyPhase cfg w f m osize =
      ((ratioPhase cfg w f m osize).1,
       Event.probeDuration (temp_output_path m) ::
       Event.probeCodec (temp_output_path m) ::
       Event.decodeTest (temp_output_path m) ::
         (ratioPhase cfg w f m osize).2) := by
  simp [verifyPhase, hcd, hdur, hcc, hdec]


/-- Claim C5: for every matched file whose transcode and verification
succeed, if compressed size / original size strictly exceeds the configured
threshold the temp file is deleted, the original is retained (no unlink of
the original, no rename) and the outcome is a failure record whose error is
the insufficient-compression message; while a ratio exactly equal to the
threshold passes the gate and proceeds to the swap. -/
theorem C5_ratio_gate (cfg : Config) (w : FileWorld) (f m : String) (ob cb : ℕ)
    (hm : w.matched = some m) (hs : w.originalStat = some ob) (hob : 0 < ob)
    (hc : isTarget (get_video_codec w.codecOut) = false)
    (hdry : cfg.dry_run = false)
    (hexc : w.engineExc = false) (hexit : w.engineExit = 0)
    (hcd : truthy w.compressedDuration = true)
    (hdur : ¬(truthy w.originalDuration = true ∧
        qabs (qsub (w.compressedDuration.getD 0) (w.originalDuration.getD 0)) > 5))
    (hcc : isTarget (get_video_codec w.compressedCodecOut) = true)
    (hdec : w.decodeRun = some (0, ""))
    (hts : w.tempStat = some cb) :
    (qdiv (get_file_size_gb cb) (get_file_size_gb ob) > cfg.min_compression_ratio →
       (process_file cfg w f).1 =
         Except.ok
           { file := f, success := false,
             original_size_gb := get_file_size_gb ob,
             compressed_size_gb := get_file_size_gb cb,
             space_saved_gb := qsub (get_file_size_gb ob) (get_file_size_gb cb),
             error := some "Insufficient compression" } ∧
       Event.unlinkFile (temp_output_path m) ∈ (process_file cfg w f).2 ∧
       Event.unlinkFile m ∉ (process_file cfg w f).2 ∧
       Event.renameFile (temp_output_path m) m ∉ (process_file cfg w f).2) ∧
    (qdiv (get_file_size_gb cb) (get_file_size_gb ob) = cfg.min_compression_ratio →
       w.unlinkOriginalRaises = false → w.renameRaises = false →
       (w.downloadsExists = true → w.unlinkDownloadsRaises = false) →
       ∃ s, (process_file cfg w f).1 = Except.ok s ∧ s.success = true ∧
         Event.renameFile (temp_output_path m) m ∈ (process_file cfg w f).2) := by
  have hosz : get_file_size_gb ob ≠ 0 := get_file_size_gb_ne_zero hob
  have hpf : process_file cfg w f =
      ((ratioPhase cfg w f m (get_file_size_gb ob)).1,
       Event.probeCodec m :: Event.probeDuration m ::
       Event.probeDuration m :: Event.transcode m (temp_output_path m) ::
       Event.probeDuration (temp_output_path m) ::
       Event.probeCodec (temp_output_path m) ::
       Event.decodeTest (temp_output_path m) ::
         (ratioPhase cfg w f m (get_file_size_gb ob)).2) := by
    rw [process_file_proceed cfg w f m ob hm hs hc,
        afterCodec_verify cfg w f m (get_file_size_gb ob) hdry hexc hexit,
        verifyPhase_ratio cfg w f m (get_file_size_gb ob) hcd hdur hcc hdec]
  constructor
  · intro hgt
    have hr : ratioPhase cfg w f m (get_file_size_gb ob) =
        (Except.ok
          { file := f, success := false,
            original_size_gb := get_file_size_gb ob,
            compressed_size_gb := get_file_size_gb cb,
            space_saved_gb := qsub (get_file_size_gb ob) (get_file_size_gb cb),
            error := some "Insufficient compression" },
         [Event.unlinkFile (temp_output_path m)]) := by
      simp [ratioPhase, hts, pydiv, hosz, hgt, baseStats]
    rw [hpf, hr]
    refine ⟨rfl, by simp, ?_, by simp⟩
    simp only [List.mem_cons, List.not_mem_nil, or_false]
    intro hmem
    rcases hmem with h | h | h | h | h | h | h | h
    · exact Event.noConfusion h
    · exact Event.noConfusion h
    · exact Event.noConfusion h
    · exact Event.noConfusion h
    · exact Event.noConfusion h
    · exact Event.noConfusion h
    · exact Event.noConfusion h
    · injection h with h2
      exact temp_output_path_ne m h2.symm
  · intro heq hU hR hD
    have hng : ¬ qdiv (get_file_size_gb cb) (get_file_size_gb ob) >
        cfg.min_compression_ratio := by
      rw [heq]
      exact lt_irrefl _
    have hr : ratioPhase cfg w f m (get_file_size_gb ob) =
        swapPhase w f m (get_file_size_gb ob) (get_file_size_gb cb) := by
      simp [ratioPhase, hts, pydiv, hosz, hng]
    by_cases hd : w.downloadsExists
    · have hsw : swapPhase w f m (get_file_size_gb ob) (get_file_size_gb cb) =
          (Except.ok
            { file := f, success := true,
              original_size_gb := get_file_size_gb ob,
              compressed_size_gb := get_file_size_gb cb,
              space_saved_gb := qsub (get_file_size_gb ob) (get_file_size_gb cb),
              error := none },
           [Event.unlinkFile m, Event.renameFile (temp_output_path m) m,
            Event.unlinkFile f, Event.notifyPerFile m]) := by
        simp [swapPhase, hU, hR, hd, hD hd, baseStats]
      rw [hpf, hr, hsw]
      exact ⟨_, rfl, rfl, by simp⟩
    · have hsw : swapPhase w f m (get_file_size_gb ob) (get_file_size_gb cb) =
          (Except.ok
            { file := f, success := true,
              original_size_gb := get_file_size_gb ob,
              compressed_size_gb := get_file_size_gb cb,
              space_saved_gb := qsub (get_file_size_gb ob) (get_file_size_gb cb),
              error := none },
           [Event.unlinkFile m, Event.renameFile (temp_output_path m) m,
            Event.notifyPerFile m]) := by
        simp [swapPhase, hU, hR, hd, baseStats]
      rw [hpf, hr, hsw]
      exact ⟨_, rfl, rfl, by simp⟩

/-- Witness for C5_ratio_gate: original 10 GB, compressed 9 GB, ratio 0.9
strictly above the default threshold 0.8 — the swap is rejected with the
insufficient-compression error and the original is untouched. -/
theorem C5_ratio_gate_witness :
    qdiv (get_file_size_gb (9 * 1024 ^ 3)) (get_file_size_gb (10 * 1024 ^ 3)) >
      defaultConfig.min_compression_ratio ∧
    (process_file defaultConfig { wOk with tempStat := some (9 * 1024 ^ 3) } "d.mkv").1 =
      Except.ok
        { file := "d.mkv", success := false,
          original_size_gb := get_file_size_gb (10 * 1024 ^ 3),
          compressed_size_gb := get_file_size_gb (9 * 1024 ^ 3),
          space_saved_gb := qsub (get_file_size_gb (10 * 1024 ^ 3))
            (get_file_size_gb (9 * 1024 ^ 3)),
          error := some "Insufficient compression" } := by
  refine ⟨by decide, ?_⟩
  exact ((C5_ratio_gate defaultConfig { wOk with tempStat := some (9 * 1024 ^ 3) }
    "d.mkv" "m.mkv" (10 * 1024 ^ 3) (9 * 1024 ^ 3)
    rfl rfl (by decide) (by decide) rfl rfl rfl (by decide) (by decide)
    (by decide) rfl rfl).1 (by decide)).1


/-- Claim C9: the ratio computation divides the compressed size by the
original size with no zero guard: for every matched 0-byte original that
reaches the ratio check (transcode and all verification checks succeed) the
division raises ZeroDivisionError — process_file produces an exception
instead of an OutcomeRecord — and the run aborts with exit code 1, so
success on this path requires a positive original size. -/
theorem C9_zero_size_division (cfg : Config) (w : FileWorld) (f m : String) (cb : ℕ)
    (hm : w.matched = some m) (hs : w.originalStat = some 0)
    (hc : isTarget (get_video_codec w.codecOut) = false)
    (hdry : cfg.dry_run = false)
    (hexc : w.engineExc = false) (hexit : w.engineExit = 0)
    (hcd : truthy w.compressedDuration = true)
    (hdur : ¬(truthy w.originalDuration = true ∧
        qabs (qsub (w.compressedDuration.getD 0) (w.originalDuration.getD 0)) > 5))
    (hcc : isTarget (get_video_codec w.compressedCodecOut) = true)
    (hdec : w.decodeRun = some (0, ""))
    (hts : w.tempStat = some cb) :
    (process_file cfg w f).1 = Except.error PyErr.zeroDivisionError ∧
    (main cfg { lockHeld := false, files := [(f, w)] }).1 = 1 := by
  have hr : ratioPhase cfg w f m (get_file_size_gb 0) =
      (Except.error PyErr.zeroDivisionError, []) := by
    simp [ratioPhase, hts, pydiv, get_file_size_gb_zero]
  have herr : (process_file cfg w f).1 = Except.error PyErr.zeroDivisionError := by
    rw [process_file_proceed cfg w f m 0 hm hs hc,
        afterCodec_verify cfg w f m (get_file_size_gb 0) hdry hexc hexit,
        verifyPhase_ratio cfg w f m (get_file_size_gb 0) hcd hdur hcc hdec, hr]
  refine ⟨herr, ?_⟩
  simp [main, runLoop, herr]

/-- A world with a 0-byte original in which every other step succeeds. -/
def wZero : FileWorld := { wOk with originalStat := some 0 }

/-- Witness for C9_zero_size_division at a concrete 0-byte original whose
transcode and verification succeed. -/
theorem C9_zero_size_division_witness :
    (process_file defaultConfig wZero "d.mkv").1 =
      Except.error PyErr.zeroDivisionError ∧
    (main defaultConfig { lockHeld := false, files := [("d.mkv", wZero)] }).1 = 1 :=
  C9_zero_size_division defaultConfig wZero
    "d.mkv" "m.mkv" (4 * 1024 ^ 3)
    rfl rfl (by decide) rfl rfl rfl (by decide) (by decide) (by decide) rfl rfl

/-- Whenever afterCodec runs outside dry-run mode, the transcode engine is
invoked (whether or not it succeeds). -/
theorem afterCodec_transcode_mem (cfg : Config) (w : FileWorld) (f m : String)
    (osize : ℚ) (hdry : cfg.dry_run = false) :
    Event.transcode m (temp_output_path m) ∈ (afterCodec cfg w f m osize).2 := by
  simp only [afterCodec, hdry, Bool.false_eq_true, if_false]
  split
  · simp [compress_video]
  · simp [compress_video]

/-- Claim C10: an absent codec probe result is not treated as already at
the target codec: with no codec result the pipeline proceeds to probe the
duration and attempts the transcode; the duration probe happens exactly
when the probed codec is not in the target set, and the target test holds
exactly for a probed identifier that lowercases to hevc or h265. -/
theorem C10_absent_codec (cfg : Config) (w : FileWorld) (f m : String) (ob : ℕ)
    (hm : w.matched = some m) (hs : w.originalStat = some ob)
    (hdry : cfg.dry_run = false) :
    (Event.probeDuration m ∈ (process_file cfg w f).2 ↔
       isTarget (get_video_codec w.codecOut) = false) ∧
    (isTarget (get_video_codec w.codecOut) = true ↔
       ∃ c, w.codecOut = some c ∧
         (lowerString c = "hevc" ∨ lowerString c = "h265")) ∧
    (w.codecOut = none →
       Event.transcode m (temp_output_path m) ∈ (process_file cfg w f).2) := by
  have h2 : isTarget (get_video_codec w.codecOut) = true ↔
      ∃ c, w.codecOut = some c ∧
        (lowerString c = "hevc" ∨ lowerString c = "h265") := by
    rcases hco : w.codecOut with _ | c
    · simp [get_video_codec, isTarget]
    · simp only [get_video_codec, Option.map_some', isTarget, Option.some.injEq]
      constructor
      · intro h
        by_cases hcond : lowerString c = "hevc" ∨ lowerString c = "h265"
        · exact ⟨c, rfl, hcond⟩
        · rw [if_neg hcond] at h
          exact absurd h (by simp)
      · rintro ⟨d, rfl, hcond⟩
        rw [if_pos hcond]
  refine ⟨?_, h2, ?_⟩
  · by_cases hc : isTarget (get_video_codec w.codecOut) = true
    · have hskip : process_file cfg w f =
          (Except.ok
            { baseStats f (get_file_size_gb ob) with
                error := some ("Already HEVC (" ++
                  (get_video_codec w.codecOut).getD "" ++ ")") },
           [Event.probeCodec m]) := by
        simp [process_file, hm, hs, hc]
      rw [hskip]
      simp [hc]
    · have hc2 : isTarget (get_video_codec w.codecOut) = false := by
        simpa using hc
      rw [process_file_proceed cfg w f m ob hm hs hc2]
      simp [hc2]
  · intro hco
    have hc : isTarget (get_video_codec w.codecOut) = false := by
      rw [hco]; rfl
    rw [process_file_proceed cfg w f m ob hm hs hc]
    simp only [List.mem_cons]
    right; right
    exact afterCodec_transcode_mem cfg w f m (get_file_size_gb ob) hdry

/-- Witness for C10_absent_codec at a world whose codec probe fails. -/
theorem C10_absent_codec_witness :
    (Event.probeDuration "m.mkv" ∈
        (process_file defaultConfig { wOk with codecOut := none } "d.mkv").2 ↔
      isTarget (get_video_codec
        ({ wOk with codecOut := none } : FileWorld).codecOut) = false) ∧
    (isTarget (get_video_codec
        ({ wOk with codecOut := none } : FileWorld).codecOut) = true ↔
      ∃ c, ({ wOk with codecOut := none } : FileWorld).codecOut = some c ∧
        (lowerString c = "hevc" ∨ lowerString c = "h265")) ∧
    (({ wOk with codecOut := none } : FileWorld).codecOut = none →
      Event.transcode "m.mkv" (temp_output_path "m.mkv") ∈
        (process_file defaultConfig { wOk with codecOut := none } "d.mkv").2) :=
  C10_absent_codec defaultConfig { wOk with codecOut := none } "d.mkv" "m.mkv"
    (10 * 1024 ^ 3) rfl rfl rfl


/-- World wOk except that the stat of the matched file raises OSError. -/
def wStatErr : FileWorld := { wOk with originalStat := none }

/-- Claim C2 counterexample: there is no try boundary around process_file in
the per-file loop.  An OSError raised while statting the matched file
escapes process_file — no OutcomeRecord is produced — and aborts the whole
run as a fatal fault: the second candidate of this run is never touched
(none of its events appear), the trace goes straight to the lock release
and the fatal notification, and the process exits 1. -/
theorem C2_counterexample :
    (process_file defaultConfig wStatErr "a.mkv").1 = Except.error PyErr.osError ∧
    main defaultConfig
        { lockHeld := false, files := [("a.mkv", wStatErr), ("b.mkv", wOk)] } =
      (1, [Event.lockAcquired, Event.lockReleased, Event.notifyFatal]) := by
  decide

/-- A per-file world in which no uncaught exception can occur inside
process_file: the stat calls succeed and the original file is nonempty, so
neither the OSError nor the ZeroDivisionError path is reachable. -/
def benign (w : FileWorld) : Prop :=
  0 < w.originalStat.getD 0 ∧ w.tempStat.isSome = true

instance benignDecidable : DecidablePred benign := fun w =>
  inferInstanceAs (Decidable (0 < w.originalStat.getD 0 ∧ w.tempStat.isSome = true))

/-- Every swap outcome is an OutcomeRecord (the except handler catches all
swap exceptions). -/
theorem swapPhase_ok (w : FileWorld) (f m : String) (a b : ℚ) :
    ∃ s, (swapPhase w f m a b).1 = Except.ok s := by
  by_cases h1 : w.unlinkOriginalRaises <;> by_cases h2 : w.renameRaises <;>
    by_cases h3 : w.downloadsExists <;> by_cases h4 : w.unlinkDownloadsRaises <;>
    simp [swapPhase, h1, h2, h3, h4]

/-- With a successful stat of the nonempty original and of the temp file,
the ratio gate always produces an OutcomeRecord. -/
theorem ratioPhase_ok (cfg : Config) (w : FileWorld) (f m : String)
    (ob cb : ℕ) (hob : 0 < ob) (hts : w.tempStat = some cb) :
    ∃ s, (ratioPhase cfg w f m (get_file_size_gb ob)).1 = Except.ok s := by
  have hosz : get_file_size_gb ob ≠ 0 := get_file_size_gb_ne_zero hob
  simp only [ratioPhase, hts, pydiv, hosz, if_false, ite_false]
  split
  · exact ⟨_, rfl⟩
  · exact swapPhase_ok w f m _ _

/-- Under the benign stat conditions, verification always produces an
OutcomeRecord. -/
theorem verifyPhase_ok (cfg : Config) (w : FileWorld) (f m : String)
    (ob cb : ℕ) (hob : 0 < ob) (hts : w.tempStat = some cb) :
    ∃ s, (verifyPhase cfg w f m (get_file_size_gb ob)).1 = Except.ok s := by
  obtain ⟨s0, hs0⟩ := ratioPhase_ok cfg w f m ob cb hob hts
  unfold verifyPhase
  dsimp only
  repeat' split
  all_goals first
    | exact ⟨_, rfl⟩
    | exact ⟨s0, hs0⟩

/-- Under the benign stat conditions, the transcode stage always produces
an OutcomeRecord. -/
theorem afterCodec_ok (cfg : Config) (w : FileWorld) (f m : String)
    (ob cb : ℕ) (hob : 0 < ob) (hts : w.tempStat = some cb) :
    ∃ s, (afterCodec cfg w f m (get_file_size_gb ob)).1 = Except.ok s := by
  obtain ⟨s0, hs0⟩ := verifyPhase_ok cfg w f m ob cb hob hts
  unfold afterCodec
  dsimp only
  repeat' split
  all_goals first
    | exact ⟨_, rfl⟩
    | exact ⟨s0, hs0⟩

/-- Under the benign conditions, process_file always returns an
OutcomeRecord (never an exception). -/
theorem process_file_ok (cfg : Config) (w : FileWorld) (f : String)
    (hb : benign w) : ∃ s, (process_file cfg w f).1 = Except.ok s := by
  obtain ⟨hpos, hts⟩ := hb
  rcases hm : w.matched with _ | m
  · refine ⟨{ file := f, success := false, original_size_gb := 0,
              compressed_size_gb := 0, space_saved_gb := 0,
              error := some "No matching media file" }, ?_⟩
    simp [process_file, hm]
  · rcases hs : w.originalStat with _ | ob
    · rw [hs] at hpos
      simp at hpos
    · have hob : 0 < ob := by rw [hs] at hpos; simpa using hpos
      rcases hts2 : w.tempStat with _ | cb
      · rw [hts2] at hts
        simp at hts
      · by_cases hc : isTarget (get_video_codec w.codecOut) = true
        · refine ⟨{ baseStats f (get_file_size_gb ob) with
                    error := some ("Already HEVC (" ++
                      (get_video_codec w.codecOut).getD "" ++ ")") }, ?_⟩
          simp [process_file, hm, hs, hc]
        · have hc2 : isTarget (get_video_codec w.codecOut) = false := by
            simpa using hc
          obtain ⟨s0, hs0⟩ := afterCodec_ok cfg w f m ob cb hob hts2
          refine ⟨s0, ?_⟩
          rw [process_file_proceed cfg w f m ob hm hs hc2]
          exact hs0

/-- Under the benign conditions for every candidate, the loop yields one
OutcomeRecord per file. -/
theorem runLoop_ok (cfg : Config) (fs : List (String × FileWorld))
    (hb : ∀ p ∈ fs, benign p.2) :
    ∃ l, (runLoop cfg fs).1 = Except.ok l ∧ l.length = fs.length := by
  induction fs with
  | nil => exact ⟨[], rfl, rfl⟩
  | cons p rest ih =>
    obtain ⟨f, w⟩ := p
    obtain ⟨s, hsok⟩ := process_file_ok cfg w f (hb _ (List.mem_cons_self _ _))
    obtain ⟨l, hl, hlen⟩ := ih (fun q hq => hb q (List.mem_cons_of_mem _ hq))
    refine ⟨s :: l, ?_, by simp [hlen]⟩
    simp [runLoop, hsok, hl]

/-- Claim C2 amended: failures of the modeled kinds (no match, already
target codec, transcode failure, verification failure, insufficient gain,
swap exception) are converted into an OutcomeRecord for their file and the
coordinator proceeds; when no uncaught exception occurs in any per-file
world — stats succeed and originals are nonempty — every candidate yields
exactly one OutcomeRecord and the run exits 0.  An unexpected exception
inside process_file (a stat error or the zero-size division), however,
propagates out of the loop, which has no per-file try boundary, and aborts
the run (see the C2 counterexample). -/
theorem C2_amended_benign_run (cfg : Config) (w : RunWorld)
    (hl : w.lockHeld = false) (hb : ∀ p ∈ w.files, benign p.2) :
    (∃ l, (runLoop cfg w.files).1 = Except.ok l ∧ l.length = w.files.length) ∧
    (main cfg w).1 = 0 := by
  obtain ⟨l, hok, hlen⟩ := runLoop_ok cfg w.files hb
  refine ⟨⟨l, hok, hlen⟩, ?_⟩
  by_cases he : w.files.isEmpty
  · simp [main, hl, he]
  · simp [main, hl, he, hok]

/-- Witness for C2_amended_benign_run at a one-file benign run. -/
theorem C2_amended_benign_run_witness :
    (∃ l, (runLoop defaultConfig [("d.mkv", wOk)]).1 = Except.ok l ∧
       l.length = [("d.mkv", wOk)].length) ∧
    (main defaultConfig { lockHeld := false, files := [("d.mkv", wOk)] }).1 = 0 :=
  C2_amended_benign_run defaultConfig
    { lockHeld := false, files := [("d.mkv", wOk)] } rfl (by decide)


/-- World wOk except that the original duration probes as exactly 0 seconds
while the compressed output lasts 100 seconds. -/
def wZeroDur : FileWorld :=
  { wOk with originalDuration := some 0, compressedDuration := some 100 }

/-- Claim C6 counterexample: with a known original duration of 0 s and a
compressed duration of 100 s, the difference 100 s exceeds 5 s, so the claim
requires the duration-match check (skipped only for an absent original
duration) to fail and the temp file to be deleted.  The source however
guards the check with Python truthiness (`if original_duration and ...`), so
a 0.0 duration skips it: verification passes, the temp file is renamed over
the original, and the outcome is a success record. -/
theorem C6_counterexample :
    wZeroDur.originalDuration = some 0 ∧
    wZeroDur.compressedDuration = some 100 ∧
    process_file defaultConfig wZeroDur "d.mkv" =
      (Except.ok
        { file := "d.mkv", success := true, original_size_gb := 10,
          compressed_size_gb := 4, space_saved_gb := 6, error := none },
       [Event.probeCodec "m.mkv", Event.probeDuration "m.mkv",
        Event.probeDuration "m.mkv", Event.transcode "m.mkv" ".m.mkv.tmp",
        Event.probeDuration ".m.mkv.tmp", Event.probeCodec ".m.mkv.tmp",
        Event.decodeTest ".m.mkv.tmp", Event.unlinkFile "m.mkv",
        Event.renameFile ".m.mkv.tmp" "m.mkv", Event.unlinkFile "d.mkv",
        Event.notifyPerFile "m.mkv"]) := by
  decide

/-- Claim C6 amended: verification runs the four checks in the stated fixed
order, short-circuiting at the first failure, deleting the temp file and
leaving the original untouched on every failure; but the Python truthiness
gates mean check 1 fails exactly when the compressed duration is absent or
zero, and check 2 runs only when the original duration is present and
nonzero (an original duration of exactly 0 s skips it as if absent).  The
four conjuncts below show each failure outcome together with the
short-circuit (the probe or decode events of later checks are absent) and
the cleanup (temp deleted, no unlink of the original, no rename). -/
theorem C6_verification_order (cfg : Config) (w : FileWorld) (f m : String)
    (ob : ℕ)
    (hm : w.matched = some m) (hs : w.originalStat = some ob)
    (hc : isTarget (get_video_codec w.codecOut) = false)
    (hdry : cfg.dry_run = false)
    (hexc : w.engineExc = false) (hexit : w.engineExit = 0) :
    (truthy w.compressedDuration = false →
       (process_file cfg w f).1 =
         Except.ok { baseStats f (get_file_size_gb ob) with
           error := some "Compressed file has no duration" } ∧
       Event.unlinkFile (temp_output_path m) ∈ (process_file cfg w f).2 ∧
       Event.probeCodec (temp_output_path m) ∉ (process_file cfg w f).2 ∧
       Event.unlinkFile m ∉ (process_file cfg w f).2 ∧
       Event.renameFile (temp_output_path m) m ∉ (process_file cfg w f).2) ∧
    (truthy w.compressedDuration = true →
     truthy w.originalDuration = true →
     qabs (qsub (w.compressedDuration.getD 0) (w.originalDuration.getD 0)) > 5 →
       (process_file cfg w f).1 =
         Except.ok { baseStats f (get_file_size_gb ob) with
           error := some "Duration mismatch (file truncated)" } ∧
       Event.unlinkFile (temp_output_path m) ∈ (process_file cfg w f).2 ∧
       Event.probeCodec (temp_output_path m) ∉ (process_file cfg w f).2 ∧
       Event.unlinkFile m ∉ (process_file cfg w f).2 ∧
       Event.renameFile (temp_output_path m) m ∉ (process_file cfg w f).2) ∧
    (truthy w.compressedDuration = true →
     ¬(truthy w.originalDuration = true ∧
         qabs (qsub (w.compressedDuration.getD 0) (w.originalDuration.getD 0)) > 5) →
     isTarget (get_video_codec w.compressedCodecOut) = false →
       (process_file cfg w f).1 =
         Except.ok { baseStats f (get_file_size_gb ob) with
           error := some ("Wrong codec: " ++
             (get_video_codec w.compressedCodecOut).getD "None") } ∧
       Event.unlinkFile (temp_output_path m) ∈ (process_file cfg w f).2 ∧
       Event.probeCodec (temp_output_path m) ∈ (process_file cfg w f).2 ∧
       Event.decodeTest (temp_output_path m) ∉ (process_file cfg w f).2 ∧
       Event.unlinkFile m ∉ (process_file cfg w f).2 ∧
       Event.renameFile (temp_output_path m) m ∉ (process_file cfg w f).2) ∧
    (truthy w.compressedDuration = true →
     ¬(truthy w.originalDuration = true ∧
         qabs (qsub (w.compressedDuration.getD 0) (w.originalDuration.getD 0)) > 5) →
     isTarget (get_video_codec w.compressedCodecOut) = true →
     ∀ rc errS, w.decodeRun = some (rc, errS) → (rc ≠ 0 ∨ errS ≠ "") →
       (process_file cfg w f).1 =
         Except.ok { baseStats f (get_file_size_gb ob) with
           error := some "Decode test failed" } ∧
       Event.unlinkFile (temp_output_path m) ∈ (process_file cfg w f).2 ∧
       Event.decodeTest (temp_output_path m) ∈ (process_file cfg w f).2 ∧
       Event.unlinkFile m ∉ (process_file cfg w f).2 ∧
       Event.renameFile (temp_output_path m) m ∉ (process_file cfg w f).2) := by
  have hne : temp_output_path m ≠ m := temp_output_path_ne m
  have hne2 : m ≠ temp_output_path m := fun h => hne h.symm
  have hpf : process_file cfg w f =
      ((verifyPhase cfg w f m (get_file_size_gb ob)).1,
       Event.probeCodec m :: Event.probeDuration m ::
       Event.probeDuration m :: Event.transcode m (temp_output_path m) ::
         (verifyPhase cfg w f m (get_file_size_gb ob)).2) := by
    rw [process_file_proceed cfg w f m ob hm hs hc,
        afterCodec_verify cfg w f m (get_file_size_gb ob) hdry hexc hexit]
  refine ⟨?_, ?_, ?_, ?_⟩
  · intro hcd
    have hv : verifyPhase cfg w f m (get_file_size_gb ob) =
        (Except.ok { baseStats f (get_file_size_gb ob) with
           error := some "Compressed file has no duration" },
         [Event.probeDuration (temp_output_path m),
          Event.unlinkFile (temp_output_path m)]) := by
      simp [verifyPhase, hcd]
    rw [hpf, hv]
    exact ⟨rfl, by simp, by simp [hne, hne2], by simp [hne, hne2], by simp⟩
  · intro hcd hod hgt
    have hv : verifyPhase cfg w f m (get_file_size_gb ob) =
        (Except.ok { baseStats f (get_file_size_gb ob) with
           error := some "Duration mismatch (file truncated)" },
         [Event.probeDuration (temp_output_path m),
          Event.unlinkFile (temp_output_path m)]) := by
      simp [verifyPhase, hcd, hod, hgt]
    rw [hpf, hv]
    exact ⟨rfl, by simp, by simp [hne, hne2], by simp [hne, hne2], by simp⟩
  · intro hcd hdur hcc
    have hv : verifyPhase cfg w f m (get_file_size_gb ob) =
        (Except.ok { baseStats f (get_file_size_gb ob) with
           error := some ("Wrong codec: " ++
             (get_video_codec w.compressedCodecOut).getD "None") },
         [Event.probeDuration (temp_output_path m),
          Event.probeCodec (temp_output_path m),
          Event.unlinkFile (temp_output_path m)]) := by
      simp [verifyPhase, hcd, hdur, hcc]
    rw [hpf, hv]
    exact ⟨rfl, by simp, by simp, by simp [hne, hne2], by simp [hne, hne2], by simp⟩
  · intro hcd hdur hcc rc errS hdec hbad
    have hv : verifyPhase cfg w f m (get_file_size_gb ob) =
        (Except.ok { baseStats f (get_file_size_gb ob) with
           error := some "Decode test failed" },
         [Event.probeDuration (temp_output_path m),
          Event.probeCodec (temp_output_path m),
          Event.decodeTest (temp_output_path m),
          Event.unlinkFile (temp_output_path m)]) := by
      simp [verifyPhase, hcd, hdur, hcc, hdec, hbad]
    rw [hpf, hv]
    exact ⟨rfl, by simp, by simp, by simp [hne, hne2], by simp⟩

/-- World wOk with a genuine 50 s vs 100 s duration mismatch. -/
def wMismatch : FileWorld :=
  { wOk with originalDuration := some 50, compressedDuration := some 100 }

/-- Witness for C6_verification_order: a genuine duration mismatch (50 s
original, 100 s compressed) fails check 2, deletes the temp file, skips the
codec check, and leaves the original untouched. -/
theorem C6_verification_order_witness :
    (process_file defaultConfig wMismatch "d.mkv").1 =
      Except.ok { baseStats "d.mkv" (get_file_size_gb (10 * 1024 ^ 3)) with
        error := some "Duration mismatch (file truncated)" } ∧
    Event.unlinkFile (temp_output_path "m.mkv") ∈
      (process_file defaultConfig wMismatch "d.mkv").2 ∧
    Event.probeCodec (temp_output_path "m.mkv") ∉
      (process_file defaultConfig wMismatch "d.mkv").2 ∧
    Event.unlinkFile "m.mkv" ∉ (process_file defaultConfig wMismatch "d.mkv").2 ∧
    Event.renameFile (temp_output_path "m.mkv") "m.mkv" ∉
      (process_file defaultConfig wMismatch "d.mkv").2 :=
  (C6_verification_order defaultConfig wMismatch "d.mkv" "m.mkv" (10 * 1024 ^ 3)
    rfl rfl (by decide) rfl rfl rfl).2.1 (by decide) (by decide) (by decide)


/-- World wOk with no library match (the per-file outcome is a failure). -/
def wNoMatch : FileWorld := { wOk with matched := none }

/-- Claim C7 counterexample: the summary webhook notification is gated on
`successful_compressions > 0`.  A run that processes one candidate which
fails (zero successes) ends with no notification at all — the trace is just
the lock acquisition and release — although the claim requires a summary
notification at the end of every run even when every file failed. -/
theorem C7_counterexample :
    main defaultConfig { lockHeld := false, files := [("x.mkv", wNoMatch)] } =
      (0, [Event.lockAcquired, Event.lockReleased]) ∧
    Event.notifySummary ∉
      (main defaultConfig { lockHeld := false, files := [("x.mkv", wNoMatch)] }).2 := by
  decide

/-- Events emitted only by the run coordinator (main), never from inside
process_file. -/
def isRunEvent : Event → Bool
  | Event.notifySummary => true
  | Event.notifyNoVideos => true
  | Event.notifyFatal => true
  | Event.plexScan => true
  | Event.lockAcquired => true
  | Event.lockReleased => true
  | _ => false

/-- The swap step emits only per-file events. -/
theorem swapPhase_events (w : FileWorld) (f m : String) (a b : ℚ) :
    ((swapPhase w f m a b).2.all fun e => !isRunEvent e) = true := by
  by_cases h1 : w.unlinkOriginalRaises <;> by_cases h2 : w.renameRaises <;>
    by_cases h3 : w.downloadsExists <;> by_cases h4 : w.unlinkDownloadsRaises <;>
    simp [swapPhase, h1, h2, h3, h4, isRunEvent]

/-- Appending two per-file-event lists yields a per-file-event list. -/
theorem all_not_run_append {l1 l2 : List Event}
    (h1 : (l1.all fun e => !isRunEvent e) = true)
    (h2 : (l2.all fun e => !isRunEvent e) = true) :
    ((l1 ++ l2).all fun e => !isRunEvent e) = true := by
  rw [List.all_append, h1, h2]
  rfl

/-- Prepending a per-file event preserves the per-file-event property. -/
theorem all_not_run_cons {e : Event} {l : List Event}
    (h1 : isRunEvent e = false)
    (h2 : (l.all fun x => !isRunEvent x) = true) :
    ((e :: l).all fun x => !isRunEvent x) = true := by
  rw [List.all_cons, h1, h2]
  rfl

/-- The ratio gate emits only per-file events. -/
theorem ratioPhase_events (cfg : Config) (w : FileWorld) (f m : String)
    (osize : ℚ) :
    ((ratioPhase cfg w f m osize).2.all fun e => !isRunEvent e) = true := by
  unfold ratioPhase
  dsimp only
  repeat' split
  all_goals first
    | rfl
    | exact swapPhase_events w f m _ _

/-- Verification emits only per-file events. -/
theorem verifyPhase_events (cfg : Config) (w : FileWorld) (f m : String)
    (osize : ℚ) :
    ((verifyPhase cfg w f m osize).2.all fun e => !isRunEvent e) = true := by
  unfold verifyPhase
  dsimp only
  repeat' split
  all_goals first
    | rfl
    | exact all_not_run_append rfl (ratioPhase_events cfg w f m osize)

/-- The transcode stage emits only per-file events. -/
theorem afterCodec_events (cfg : Config) (w : FileWorld) (f m : String)
    (osize : ℚ) :
    ((afterCodec cfg w f m osize).2.all fun e => !isRunEvent e) = true := by
  unfold afterCodec
  dsimp only
  repeat' split
  all_goals first
    | rfl
    | exact all_not_run_append rfl (verifyPhase_events cfg w f m osize)

/-- process_file emits only per-file events. -/
theorem process_file_events (cfg : Config) (w : FileWorld) (f : String) :
    ((process_file cfg w f).2.all fun e => !isRunEvent e) = true := by
  unfold process_file
  dsimp only
  repeat' split
  all_goals first
    | rfl
    | exact all_not_run_cons rfl (all_not_run_cons rfl (afterCodec_events cfg w f _ _))

/-- No summary notification ever originates from the per-file loop. -/
theorem runLoop_no_summary (cfg : Config) (fs : List (String × FileWorld)) :
    Event.notifySummary ∉ (runLoop cfg fs).2 := by
  induction fs with
  | nil => simp [runLoop]
  | cons p rest ih =>
    obtain ⟨f, w⟩ := p
    have hnotin : Event.notifySummary ∉ (process_file cfg w f).2 := by
      intro hmm
      have hx := List.all_eq_true.mp (process_file_events cfg w f) _ hmm
      simp [isRunEvent] at hx
    unfold runLoop
    dsimp only
    split
    · exact hnotin
    · split
      · simp only [List.mem_append]
        rintro (h | h)
        · exact hnotin h
        · exact ih h
      · simp only [List.mem_append]
        rintro (h | h)
        · exact hnotin h
        · exact ih h

/-- Claim C7 amended: the run summary is always logged, but the summary
webhook notification is sent iff at least one compression succeeded in a
run with candidates (a run with no candidate files sends the no-videos
notification instead, and a fatal run sends none); on a fatal fault —
an exception escaping the loop — the run still attempts one best-effort
error notification and exits 1. -/
theorem C7_summary_gated (cfg : Config) (w : RunWorld) (hl : w.lockHeld = false) :
    (Event.notifySummary ∈ (main cfg w).2 ↔
       0 < okSuccesses (runLoop cfg w.files).1 ∧ w.files.isEmpty = false) ∧
    (∀ e : PyErr, (runLoop cfg w.files).1 = Except.error e →
       (main cfg w).1 = 1 ∧ Event.notifyFatal ∈ (main cfg w).2) := by
  have hns := runLoop_no_summary cfg w.files
  constructor
  · by_cases he : w.files.isEmpty
    · simp [main, hl, he]
    · cases hr : (runLoop cfg w.files).1 with
      | error e => simp [main, hl, he, hr, okSuccesses, hns]
      | ok l =>
        by_cases hsucc : 0 < countSuccess l
        · simp [main, hl, he, hr, okSuccesses, hsucc, hns]
        · simp [main, hl, he, hr, okSuccesses, hsucc, hns]
  · intro e hr
    by_cases he : w.files.isEmpty
    · rw [List.isEmpty_iff.mp he] at hr
      simp [runLoop] at hr
    · constructor
      · simp [main, hl, he, hr]
      · simp [main, hl, he, hr]

/-- A one-file run whose candidate is fully compressed successfully. -/
def runOkOne : RunWorld := { lockHeld := false, files := [("d.mkv", wOk)] }

/-- Witness for C7_summary_gated at a successful one-file run: the summary
notification is present exactly because one compression succeeded. -/
theorem C7_summary_gated_witness :
    (Event.notifySummary ∈ (main defaultConfig runOkOne).2 ↔
       0 < okSuccesses (runLoop defaultConfig runOkOne.files).1 ∧
       runOkOne.files.isEmpty = false) ∧
    (∀ e : PyErr, (runLoop defaultConfig runOkOne.files).1 = Except.error e →
       (main defaultConfig runOkOne).1 = 1 ∧
       Event.notifyFatal ∈ (main defaultConfig runOkOne).2) :=
  C7_summary_gated defaultConfig runOkOne rfl

end Compressor
